import Mathlib

/-!
Verification of the session-resolution and persistence logic of the
opencode CLI tool. The repository contains two variants:

* `SdkTool` embeds `src/opencode-tool.js` — the server-authoritative
  variant, where the session directory lives on the remote server and is
  queried live (`listSessions`, `getLatestSession`, `getSession`,
  `createSession`, `resolveSession`).
* `CachedTool` embeds the client-cached variant (the second CLI front
  end) — one session ID is persisted per `(host, port)` endpoint in a
  local file store (`getSessionFilePath`, `getOrCreateSession`,
  `listSessions`, `deleteSession`, `clearAllSessions`).

JavaScript strings are modelled by Lean `String`, numbers used as ports
and timestamps by `Nat`, the local file store by an association list from
file name (within the fixed sessions directory) to file content, and the
remote service by explicit data describing how each RPC call answers.
Thrown JS exceptions are modelled with `Except`.
-/

namespace OpencodeSdk

/-- A remote session as exposed by the external service: `{id, title,
updatedAt}`. `updatedAt` is the last-activity timestamp (milliseconds,
as produced by `new Date(...)`), modelled as `Nat`; a session object
whose `updatedAt` field is absent is read as `0` by the code
(`b.updatedAt || 0`), so we fold that default into the field itself. -/
structure Session where
  id : String
  title : String
  updatedAt : Nat
deriving DecidableEq, Repr

/-- One content part of a prompt response: `{type, text}`. For parts
whose `type` is not `"text"` the `text` field is irrelevant; a missing
`text` property is modelled as `""` (both are falsy in the `|| null`
read, see `textResponse`). -/
structure ContentPart where
  type : String
  text : String
deriving DecidableEq, Repr

/-- Error message thrown by both variants when `create` returns no
usable id: `"Không thể tạo session mới"`. -/
def createErrMsg : String := "Không thể tạo session mới"

/-! ### String helpers

Kernel-computable models of the JavaScript string operations used by the
source, written over the character list of a `String`. -/

/-- Whitespace recognised by `String.prototype.trim`, restricted to the
ASCII whitespace characters that can occur here. -/
def jsWhitespace (c : Char) : Bool :=
  c == ' ' || c == '\t' || c == '\n' || c == '\r' || c == '\x0b' || c == '\x0c'

/-- Character-list version of trimming from both ends. -/
def trimChars (l : List Char) : List Char :=
  ((l.dropWhile jsWhitespace).reverse.dropWhile jsWhitespace).reverse

/-- Model of `s.trim()`. -/
def jsTrim (s : String) : String := ⟨trimChars s.data⟩

/-- Model of a global single-character-class `String.replace` (such as
`replace(/[.:]/g, "_")` or `replace(/_/g, ":")`): map a character
function over the string. -/
def mapChars (f : Char → Char) (s : String) : String := ⟨s.data.map f⟩

/-- The character map of `` `${host}_${port}`.replace(/[.:]/g, "_") ``:
`'.'` and `':'` become `'_'`, everything else is unchanged. -/
def safeChar (c : Char) : Char := if c == '.' || c == ':' then '_' else c

/-- The character map of `serverName`'s `replace(/_/g, ":")`. -/
def underscoreToColon (c : Char) : Char := if c == '_' then ':' else c

/-- Replace the first occurrence of the (non-empty) pattern `pat` in the
character list, as `String.prototype.replace` with a string pattern
does; the list is returned unchanged when the pattern does not occur. -/
def replaceFirstChars (pat repl : List Char) : List Char → List Char
  | [] => []
  | c :: cs =>
    if pat.isPrefixOf (c :: cs) then repl ++ (c :: cs).drop pat.length
    else c :: replaceFirstChars pat repl cs

/-- Model of `s.replace(pat, repl)` for a non-empty string pattern:
only the first occurrence is replaced. -/
def replaceFirst (s pat repl : String) : String :=
  ⟨replaceFirstChars pat.data repl.data s.data⟩

/-- Model of `s.endsWith(suffix)`. -/
def strEndsWith (s suffix : String) : Bool := suffix.data.isSuffixOf s.data

/-! ### Local file store

The client-cached variant keeps every record inside one fixed directory
(`SESSIONS_DIR`); the store is modelled as an association list from file
name to file content, in directory-enumeration order. -/

/-- The sessions directory contents: file name to file content. -/
abbrev Store := List (String × String)

/-- Model of `fs.readFileSync` combined with `fs.existsSync`: the content
of the file named `k`, or `none` when no such file exists. -/
def readStore : Store → (k : String) → Option String
  | [], _ => none
  | (k', v) :: rest, k => if k' = k then some v else readStore rest k

/-- Model of `fs.writeFileSync`: overwrite the file named `k` with `v`,
creating it when absent. -/
def writeStore : Store → (k : String) → (v : String) → Store
  | [], k, v => [(k, v)]
  | (k', v') :: rest, k, v =>
    if k' = k then (k, v) :: rest else (k', v') :: writeStore rest k v

/-- Model of `fs.unlinkSync`: remove the file named `k`. -/
def deleteStore (st : Store) (k : String) : Store :=
  st.filter (fun kv => kv.1 != k)

/-! ### Dispatcher reply extraction (shared by both variants)

Both `sendToOpenCode` implementations compute
`responseData.parts?.find((p) => p.type === "text")?.text || null`
(where `responseData` is `promptRes.data || promptRes`). We model the
response object by its optional `parts` array. -/

/-- The `textResponse` field produced by `sendToOpenCode`: the `text` of
the first part whose `type` is `"text"`, turned into `null` by the
`|| null` when that text is empty (falsy), absent (`?.`), or when no
text part exists. -/
def textResponse (parts : Option (List ContentPart)) : Option String :=
  match parts with
  | none => none
  | some ps =>
    match ps.find? (fun p => p.type == "text") with
    | none => none
    | some p => if p.text = "" then none else some p.text

end OpencodeSdk

namespace OpencodeSdk.CachedTool

open OpencodeSdk

/-- Model of `getSessionFilePath(host, port)`: the storage key
`` `${host}_${port}`.replace(/[.:]/g, "_") `` with the `.session`
extension. The source prefixes the result with `path.join(SESSIONS_DIR, ·)`
for a fixed constant directory `SESSIONS_DIR`; since every file operation
addresses that directory, paths are modelled by their file-name
component. -/
def getSessionFilePath (host : String) (port : Nat) : String :=
  mapChars safeChar (host ++ "_" ++ toString port) ++ ".session"

/-- The remote service as seen by the client-cached variant: how
`client.session.get` answers for each id (`.error ()` models a thrown
exception, `.ok d` a response whose `data` is `d`), and the `data` of
the one `client.session.create` response used per invocation. -/
structure CServer where
  get : String → Except Unit (Option Session)
  createData : Option Session

/-- Observable outcome of one `getOrCreateSession` call: the returned
session id or thrown error, the file store afterwards, and how many
`session.create` calls, `session.get` calls and cache-file writes were
performed. -/
structure GocOut where
  ret : Except String String
  store : Store
  createCalls : Nat
  getCalls : Nat
  writeCalls : Nat
deriving Repr

/-- Model of `getOrCreateSession(client, host, port, forceNew)`:
unless `forceNew` is set, an existing cache file is read and trimmed and
the id validated with `session.get` (a thrown error or a response
without a truthy `data.id` falls through); otherwise, and on any
fall-through, a new session is created (`data.id` must be truthy, else
the `createErrMsg` error is thrown), its id written to the cache file
and returned. `ensureSessionsDir` only creates the directory and has no
observable effect in this model. -/
def getOrCreateSession (srv : CServer) (store : Store) (host : String)
    (port : Nat) (forceNew : Bool) : GocOut :=
  let sessionFile := getSessionFilePath host port
  let check : Option String × Nat :=
    if forceNew then (none, 0)
    else
      match readStore store sessionFile with
      | none => (none, 0)
      | some content =>
        let sessionId := jsTrim content
        match srv.get sessionId with
        | .error _ => (none, 1)
        | .ok none => (none, 1)
        | .ok (some s) => (if s.id = "" then none else some sessionId, 1)
  match check with
  | (some sid, g) => ⟨.ok sid, store, 0, g, 0⟩
  | (none, g) =>
    match srv.createData with
    | none => ⟨.error createErrMsg, store, 1, g, 0⟩
    | some s =>
      if s.id = "" then ⟨.error createErrMsg, store, 1, g, 0⟩
      else ⟨.ok s.id, writeStore store sessionFile s.id, 1, g, 1⟩

/-- One entry of the `listSessions` result:
`{sessionId, server, sessionFile}`. -/
structure SessionEntry where
  sessionId : String
  server : String
  sessionFile : String
deriving DecidableEq, Repr

/-- Model of the client-cached `listSessions()`: for every file ending in
`.session`, read and trim its content, and recover the server label from
the file name by dropping the `.session` extension and replacing every
`_` with `:`. The final `replace(/:(\d+)$/, ":$1")` of the source
rewrites a trailing `:digits` to the identical text and is therefore the
identity; it is omitted. -/
def listSessions (store : Store) : List SessionEntry :=
  store.filterMap fun kv =>
    if strEndsWith kv.1 ".session" then
      some ⟨jsTrim kv.2,
            mapChars underscoreToColon (replaceFirst kv.1 ".session" ""),
            kv.1⟩
    else none

/-- Model of `deleteSession(host, port)`: unlink the endpoint's cache
file if it exists and report whether it existed. -/
def deleteSession (store : Store) (host : String) (port : Nat) :
    Store × Bool :=
  let sessionFile := getSessionFilePath host port
  match readStore store sessionFile with
  | some _ => (deleteStore store sessionFile, true)
  | none => (store, false)

/-- Model of `clearAllSessions()`: unlink every file ending in `.session`
and return how many were unlinked. -/
def clearAllSessions (store : Store) : Store × Nat :=
  (store.filter (fun kv => !strEndsWith kv.1 ".session"),
   (store.filter (fun kv => strEndsWith kv.1 ".session")).length)

end OpencodeSdk.CachedTool

namespace OpencodeSdk.SdkTool

open OpencodeSdk

/-- The remote service as seen by the server-authoritative variant: the
directory of sessions the server holds (returned by `session.list` and
looked up by `session.get`), and the `data` of the one `session.create`
response used per invocation. -/
structure Server where
  sessions : List Session
  createData : Option Session

/-- The sort comparator `(a, b) => new Date(b.updatedAt || 0) - new Date(a.updatedAt || 0)`
as a boolean "a may precede b" relation: descending by `updatedAt`. -/
def updatedDesc (a b : Session) : Bool := decide (b.updatedAt ≤ a.updatedAt)

/-- Model of the server-authoritative `listSessions(client)`:
`res.data || []` sorted by `updatedAt` descending. `Array.prototype.sort`
is modelled by `List.mergeSort`, which produces a sorted permutation as
the JS sort does. -/
def listSessions (data : Option (List Session)) : List Session :=
  (data.getD []).mergeSort updatedDesc

/-- Model of `getLatestSession(client)`:
`sessions.length > 0 ? sessions[0] : null`. -/
def getLatestSession (data : Option (List Session)) : Option Session :=
  (listSessions data).head?

/-- Model of `getSession(client, sessionId)`: the session with that id
when it exists in the server's directory; the source's `catch` turns
both a thrown not-found error and a response without `data` into
`null`, modelled as `none`. -/
def getSession (srv : Server) (sessionId : String) : Option Session :=
  srv.sessions.find? (fun s => s.id == sessionId)

/-- Model of `createSession(client, title)`: the created session from
`res.data`, or the thrown `createErrMsg` error when `res.data?.id` is
not truthy. -/
def createSession (srv : Server) : Except String Session :=
  match srv.createData with
  | none => .error createErrMsg
  | some s => if s.id = "" then .error createErrMsg else .ok s

/-- The Not-Found error message of `resolveSession`:
`` `Session không tồn tại: ${sessionArg}` ``. -/
def notFoundMsg (id : String) : String := "Session không tồn tại: " ++ id

/-- Observable outcome of one `resolveSession` call: the resolved
session or thrown error, and how many `session.create` calls were
performed. -/
structure ResolveOut where
  result : Except String Session
  createCalls : Nat
deriving Repr

/-- Model of `resolveSession(client, sessionArg, forceNew)`: on
`forceNew`, create unconditionally; else an explicit selector (truthy
and different from `"last"`) is fetched and a missing session is a
thrown Not-Found error naming it; else the most recently updated session
is used, and only an empty directory leads to creating a new session. -/
def resolveSession (srv : Server) (sessionArg : Option String)
    (forceNew : Bool) : ResolveOut :=
  let latest : ResolveOut :=
    match getLatestSession (some srv.sessions) with
    | some s => ⟨.ok s, 0⟩
    | none => ⟨createSession srv, 1⟩
  if forceNew then ⟨createSession srv, 1⟩
  else
    match sessionArg with
    | some id =>
      if id != "" && id != "last" then
        match getSession srv id with
        | none => ⟨.error (notFoundMsg id), 0⟩
        | some s => ⟨.ok s, 0⟩
      else latest
    | none => latest

end OpencodeSdk.SdkTool

namespace OpencodeSdk

/-! ### Concrete fixtures used by the witnesses below -/

/-- A remote service whose `get` answers every id with a session of that
id (every cached id validates). -/
def cSrvOk : CachedTool.CServer :=
  ⟨fun i => .ok (some ⟨i, "t", 5⟩), some ⟨"ses_new", "t", 6⟩⟩

/-- A remote service whose `get` always throws (every cached id is
stale) but whose `create` succeeds. -/
def cSrvDead : CachedTool.CServer :=
  ⟨fun _ => .error (), some ⟨"ses_new", "t", 6⟩⟩

/-- A server-authoritative directory holding two sessions with distinct
`updatedAt` values. -/
def sdkSrvTwo : SdkTool.Server :=
  ⟨[⟨"ses_a", "t", 3⟩, ⟨"ses_b", "t", 7⟩], some ⟨"ses_new", "t", 9⟩⟩

/-- A server-authoritative directory holding no sessions, whose `create`
succeeds. -/
def sdkSrvEmpty : SdkTool.Server := ⟨[], some ⟨"ses_new", "t", 9⟩⟩

end OpencodeSdk

open OpencodeSdk

/-! ### Store lemmas -/

theorem readStore_writeStore_self (st : Store) (k v : String) :
    readStore (writeStore st k v) k = some v := by
  induction st with
  | nil => simp [writeStore, readStore]
  | cons kv rest ih =>
    by_cases h : kv.1 = k <;> simp [writeStore, readStore, h, ih]

theorem readStore_deleteStore_self (st : Store) (k : String) :
    readStore (deleteStore st k) k = none := by
  induction st with
  | nil => simp [deleteStore, readStore]
  | cons kv rest ih =>
    by_cases h : kv.1 = k <;> simp [deleteStore, readStore, h] at ih ⊢ <;>
      simpa [deleteStore] using ih

theorem readStore_deleteStore_ne (st : Store) (k k' : String)
    (h : k' ≠ k) : readStore (deleteStore st k) k' = readStore st k' := by
  induction st with
  | nil => rfl
  | cons kv rest ih =>
    simp only [deleteStore, List.filter_cons] at ih ⊢
    by_cases hk : kv.1 = k
    · have hne : ¬kv.1 = k' := fun hc => h (hc.symm.trans hk)
      rw [if_neg (by simp [hk])]
      rw [ih]
      simp only [readStore]
      rw [if_neg hne]
    · rw [if_pos (by simp [hk])]
      simp only [readStore]
      by_cases hk' : kv.1 = k'
      · rw [if_pos hk', if_pos hk']
      · rw [if_neg hk', if_neg hk', ih]

/-! ### Claims about the client-cached variant -/

/-- C1: in the client-cached variant, for every endpoint whose cache
file holds a session ID that the server validates successfully,
`getOrCreateSession` with `forceNew = false` returns that same cached
ID, performs no session-create call, and does not write the cache
file. -/
theorem claim_C1_valid_cached_id_reused
    (srv : CachedTool.CServer) (store : Store) (host : String) (port : Nat)
    (sid : String) (s : Session)
    (hread : readStore store (CachedTool.getSessionFilePath host port) = some sid)
    (htrim : jsTrim sid = sid)
    (hget : srv.get sid = .ok (some s))
    (hid : s.id ≠ "") :
    CachedTool.getOrCreateSession srv store host port false =
      ⟨.ok sid, store, 0, 1, 0⟩ := by
  unfold CachedTool.getOrCreateSession
  simp [hread, htrim, hget, hid]

/-- Witness for C1: a concrete cache record that the server validates. -/
theorem claim_C1_witness :
    readStore [("127_0_0_1_4096.session", "ses_live")]
        (CachedTool.getSessionFilePath "127.0.0.1" 4096) = some "ses_live" ∧
    jsTrim "ses_live" = "ses_live" ∧
    cSrvOk.get "ses_live" = .ok (some ⟨"ses_live", "t", 5⟩) ∧
    (⟨"ses_live", "t", 5⟩ : Session).id ≠ "" ∧
    CachedTool.getOrCreateSession cSrvOk
        [("127_0_0_1_4096.session", "ses_live")] "127.0.0.1" 4096 false =
      ⟨.ok "ses_live", [("127_0_0_1_4096.session", "ses_live")], 0, 1, 0⟩ :=
  ⟨by decide, by decide, rfl, by decide,
   claim_C1_valid_cached_id_reused cSrvOk
     [("127_0_0_1_4096.session", "ses_live")] "127.0.0.1" 4096 "ses_live"
     ⟨"ses_live", "t", 5⟩ (by decide) (by decide) rfl (by decide)⟩

/-- C2: in the client-cached variant, for every endpoint whose cached
session ID fails server validation (get throws, or returns no data, or
data without a truthy id), `getOrCreateSession` with `forceNew = false`
creates exactly one new remote session, overwrites the cache record for
that endpoint with the new ID, returns the new ID, and raises no
exception to the caller. -/
theorem claim_C2_stale_cached_id_replaced
    (srv : CachedTool.CServer) (store : Store) (host : String) (port : Nat)
    (content : String) (ns : Session)
    (hread : readStore store (CachedTool.getSessionFilePath host port) = some content)
    (hfail : srv.get (jsTrim content) = .error () ∨
             srv.get (jsTrim content) = .ok none ∨
             ∃ s, srv.get (jsTrim content) = .ok (some s) ∧ s.id = "")
    (hcreate : srv.createData = some ns)
    (hid : ns.id ≠ "") :
    CachedTool.getOrCreateSession srv store host port false =
      ⟨.ok ns.id,
       writeStore store (CachedTool.getSessionFilePath host port) ns.id,
       1, 1, 1⟩ ∧
    readStore (CachedTool.getOrCreateSession srv store host port false).store
      (CachedTool.getSessionFilePath host port) = some ns.id := by
  have hmain : CachedTool.getOrCreateSession srv store host port false =
      ⟨.ok ns.id,
       writeStore store (CachedTool.getSessionFilePath host port) ns.id,
       1, 1, 1⟩ := by
    unfold CachedTool.getOrCreateSession
    rcases hfail with hf | hf | ⟨s, hf, hsid⟩
    · simp [hread, hf, hcreate, hid]
    · simp [hread, hf, hcreate, hid]
    · simp [hread, hf, hsid, hcreate, hid]
  exact ⟨hmain, by rw [hmain]; exact readStore_writeStore_self _ _ _⟩

/-- Witness for C2: the spec's scenario — stale id `ses_dead` for
`(127.0.0.1, 4096)`, `get` throws, one create, cache overwritten. -/
theorem claim_C2_witness :
    readStore [("127_0_0_1_4096.session", "ses_dead")]
        (CachedTool.getSessionFilePath "127.0.0.1" 4096) = some "ses_dead" ∧
    cSrvDead.get (jsTrim "ses_dead") = .error () ∧
    cSrvDead.createData = some ⟨"ses_new", "t", 6⟩ ∧
    (⟨"ses_new", "t", 6⟩ : Session).id ≠ "" ∧
    (CachedTool.getOrCreateSession cSrvDead
        [("127_0_0_1_4096.session", "ses_dead")] "127.0.0.1" 4096 false =
      ⟨.ok "ses_new",
       writeStore [("127_0_0_1_4096.session", "ses_dead")]
         (CachedTool.getSessionFilePath "127.0.0.1" 4096) "ses_new",
       1, 1, 1⟩ ∧
     readStore (CachedTool.getOrCreateSession cSrvDead
         [("127_0_0_1_4096.session", "ses_dead")] "127.0.0.1" 4096 false).store
       (CachedTool.getSessionFilePath "127.0.0.1" 4096) = some "ses_new") :=
  ⟨by decide, rfl, rfl, by decide,
   claim_C2_stale_cached_id_replaced cSrvDead
     [("127_0_0_1_4096.session", "ses_dead")] "127.0.0.1" 4096 "ses_dead"
     ⟨"ses_new", "t", 6⟩ (by decide) (Or.inl rfl) rfl (by decide)⟩

/-- C4: in the client-cached variant, for every endpoint and every prior
cache state, `getOrCreateSession` with `forceNew = true` creates a new
remote session without consulting or validating the cache (no
`session.get` call, identical outcome for every prior store), overwrites
the endpoint's cache record with the new session's ID, and returns
it. -/
theorem claim_C4_force_new_ignores_cache
    (srv : CachedTool.CServer) (host : String) (port : Nat) (ns : Session)
    (hcreate : srv.createData = some ns)
    (hid : ns.id ≠ "") :
    ∀ store : Store,
      CachedTool.getOrCreateSession srv store host port true =
        ⟨.ok ns.id,
         writeStore store (CachedTool.getSessionFilePath host port) ns.id,
         1, 0, 1⟩ ∧
      readStore (CachedTool.getOrCreateSession srv store host port true).store
        (CachedTool.getSessionFilePath host port) = some ns.id := by
  intro store
  have hmain : CachedTool.getOrCreateSession srv store host port true =
      ⟨.ok ns.id,
       writeStore store (CachedTool.getSessionFilePath host port) ns.id,
       1, 0, 1⟩ := by
    unfold CachedTool.getOrCreateSession
    simp [hcreate, hid]
  exact ⟨hmain, by rw [hmain]; exact readStore_writeStore_self _ _ _⟩

/-- Witness for C4: forcing a new session on a cache that still holds a
perfectly valid record for the endpoint. -/
theorem claim_C4_witness :
    cSrvOk.createData = some ⟨"ses_new", "t", 6⟩ ∧
    (⟨"ses_new", "t", 6⟩ : Session).id ≠ "" ∧
    (CachedTool.getOrCreateSession cSrvOk
        [("127_0_0_1_4096.session", "ses_live")] "127.0.0.1" 4096 true =
      ⟨.ok "ses_new",
       writeStore [("127_0_0_1_4096.session", "ses_live")]
         (CachedTool.getSessionFilePath "127.0.0.1" 4096) "ses_new",
       1, 0, 1⟩ ∧
     readStore (CachedTool.getOrCreateSession cSrvOk
         [("127_0_0_1_4096.session", "ses_live")] "127.0.0.1" 4096 true).store
       (CachedTool.getSessionFilePath "127.0.0.1" 4096) = some "ses_new") :=
  ⟨rfl, by decide,
   claim_C4_force_new_ignores_cache cSrvOk "127.0.0.1" 4096
     ⟨"ses_new", "t", 6⟩ rfl (by decide)
     [("127_0_0_1_4096.session", "ses_live")]⟩

theorem filterMap_filter_not_eq_nil {α β : Type} (p : α → Bool)
    (f : α → Option β) (hf : ∀ a, p a = false → f a = none) (l : List α) :
    (l.filter fun a => !p a).filterMap f = [] := by
  induction l with
  | nil => rfl
  | cons a l ih =>
    by_cases h : p a
    · simp [List.filter_cons, h, ih]
    · have hfa := hf a (by simpa using h)
      simp [List.filter_cons, List.filterMap_cons, h, hfa, ih]

theorem length_filterMap_eq_length_filter {α β : Type} (p : α → Bool)
    (f : α → Option β) (hsome : ∀ a, (f a).isSome = p a) (l : List α) :
    (l.filterMap f).length = (l.filter p).length := by
  induction l with
  | nil => rfl
  | cons a l ih =>
    cases hfa : f a with
    | none =>
      have hp : p a = false := by rw [← hsome a, hfa]; rfl
      simp [List.filter_cons, List.filterMap_cons, hfa, hp, ih]
    | some b =>
      have hp : p a = true := by rw [← hsome a, hfa]; rfl
      simp [List.filter_cons, List.filterMap_cons, hfa, hp, ih]

/-- C8: for every cache state, `clearAllSessions` removes every
persisted endpoint-to-session record — a `listSessions` performed
immediately afterwards returns the empty collection — and returns the
number of records removed, i.e. the number of records `listSessions`
enumerated beforehand. -/
theorem claim_C8_clear_all_removes_everything (store : Store) :
    CachedTool.listSessions (CachedTool.clearAllSessions store).1 = [] ∧
    (CachedTool.clearAllSessions store).2 =
      (CachedTool.listSessions store).length := by
  constructor
  · refine filterMap_filter_not_eq_nil
      (fun kv => strEndsWith kv.1 ".session") _ ?_ store
    intro kv hk
    simp [hk]
  · refine (length_filterMap_eq_length_filter
      (fun kv => strEndsWith kv.1 ".session") _ ?_ store).symm
    intro kv
    by_cases h : strEndsWith kv.1 ".session" <;> simp [h]

/-- C9: delete-one removes the given endpoint's record and reports
`true` when a record exists, reports `false` when none exists, and in
either case touches no other record and raises no error. -/
theorem claim_C9_delete_one_reports_existence
    (store : Store) (host : String) (port : Nat) :
    ((CachedTool.deleteSession store host port).2 =
      (readStore store (CachedTool.getSessionFilePath host port)).isSome) ∧
    readStore (CachedTool.deleteSession store host port).1
      (CachedTool.getSessionFilePath host port) = none ∧
    ∀ k, k ≠ CachedTool.getSessionFilePath host port →
      readStore (CachedTool.deleteSession store host port).1 k =
        readStore store k := by
  have hd : CachedTool.deleteSession store host port =
      match readStore store (CachedTool.getSessionFilePath host port) with
      | some _ => (deleteStore store (CachedTool.getSessionFilePath host port), true)
      | none => (store, false) := rfl
  cases hr : readStore store (CachedTool.getSessionFilePath host port) with
  | none =>
    rw [hd, hr]
    exact ⟨rfl, hr, fun k _ => rfl⟩
  | some v =>
    rw [hd, hr]
    exact ⟨rfl,
      readStore_deleteStore_self store (CachedTool.getSessionFilePath host port),
      fun k hk => readStore_deleteStore_ne store
        (CachedTool.getSessionFilePath host port) k hk⟩

/-- Witness for C9: deleting an existing record reports `true` and
leaves an unrelated record alone; the endpoint's own record is gone. -/
theorem claim_C9_witness :
    (CachedTool.deleteSession
        [("127_0_0_1_4096.session", "ses_x"), ("localhost_5000.session", "ses_y")]
        "127.0.0.1" 4096).2 = true ∧
    readStore (CachedTool.deleteSession
        [("127_0_0_1_4096.session", "ses_x"), ("localhost_5000.session", "ses_y")]
        "127.0.0.1" 4096).1
      (CachedTool.getSessionFilePath "127.0.0.1" 4096) = none ∧
    ("localhost_5000.session" ≠ CachedTool.getSessionFilePath "127.0.0.1" 4096 ∧
     readStore (CachedTool.deleteSession
        [("127_0_0_1_4096.session", "ses_x"), ("localhost_5000.session", "ses_y")]
        "127.0.0.1" 4096).1 "localhost_5000.session" =
       readStore
         [("127_0_0_1_4096.session", "ses_x"), ("localhost_5000.session", "ses_y")]
         "localhost_5000.session") :=
  ⟨((claim_C9_delete_one_reports_existence
      [("127_0_0_1_4096.session", "ses_x"), ("localhost_5000.session", "ses_y")]
      "127.0.0.1" 4096).1).trans (by decide),
   (claim_C9_delete_one_reports_existence
      [("127_0_0_1_4096.session", "ses_x"), ("localhost_5000.session", "ses_y")]
      "127.0.0.1" 4096).2.1,
   by decide,
   (claim_C9_delete_one_reports_existence
      [("127_0_0_1_4096.session", "ses_x"), ("localhost_5000.session", "ses_y")]
      "127.0.0.1" 4096).2.2 "localhost_5000.session" (by decide)⟩

/-- C10: the cache-key derivation is not injective — two distinct
endpoint identities (one host containing `_`, one containing `.` in the
corresponding position) produce the same storage key and therefore alias
a single cache record. -/
theorem claim_C10_storage_key_aliasing :
    ∃ (h₁ : String) (p₁ : Nat) (h₂ : String) (p₂ : Nat),
      (h₁, p₁) ≠ (h₂, p₂) ∧
      CachedTool.getSessionFilePath h₁ p₁ =
        CachedTool.getSessionFilePath h₂ p₂ :=
  ⟨"127.0.0.1", 4096, "127_0_0_1", 4096, by decide, by decide⟩

/-! ### Claims about the dispatcher reply extraction -/

/-- C7 counterexample: a response whose first (and only) content part is
text-typed but has empty text — the code returns `null` (the `|| null`
sees the falsy empty string) although a text-typed part is present, so
the extraction does not return "the text of the first text part" in
general. -/
theorem claim_C7_counterexample :
    textResponse (some [⟨"text", ""⟩]) = none ∧
    (List.find? (fun p => p.type == "text")
      [(⟨"text", ""⟩ : ContentPart)]).isSome = true := by decide

/-- C7 amended: `sendToOpenCode` returns as `textResponse` the text of
the first content part of type `"text"` when that text is non-empty,
and returns `null` when no text-typed part is present, when the
response has no `parts`, or when the first text-typed part's text is
the empty string (JS falsy). -/
theorem claim_C7_first_text_part_extracted (parts : List ContentPart) :
    textResponse none = none ∧
    ((∀ p ∈ parts, p.type ≠ "text") → textResponse (some parts) = none) ∧
    (∀ p, parts.find? (fun q => q.type == "text") = some p →
      (p.text ≠ "" → textResponse (some parts) = some p.text) ∧
      (p.text = "" → textResponse (some parts) = none)) := by
  refine ⟨rfl, ?_, ?_⟩
  · intro hnone
    have hfind : parts.find? (fun q => q.type == "text") = none :=
      List.find?_eq_none.mpr (fun q hq => by simpa using hnone q hq)
    simp [textResponse, hfind]
  · intro p hp
    exact ⟨fun hne => by simp [textResponse, hp, hne],
           fun he => by simp [textResponse, hp, he]⟩

/-- Witness for C7's amended theorem: a tool part followed by a text
part with non-empty text is extracted. -/
theorem claim_C7_witness :
    (List.find? (fun q => q.type == "text")
      [(⟨"tool", "x"⟩ : ContentPart), ⟨"text", "hi"⟩] = some ⟨"text", "hi"⟩) ∧
    ("hi" : String) ≠ "" ∧
    textResponse (some [⟨"tool", "x"⟩, ⟨"text", "hi"⟩]) = some "hi" :=
  ⟨by decide, by decide,
   ((claim_C7_first_text_part_extracted [⟨"tool", "x"⟩, ⟨"text", "hi"⟩]).2.2
     ⟨"text", "hi"⟩ (by decide)).1 (by decide)⟩

/-! ### Claims about the server-authoritative variant -/

/-- C3: `resolveSession` with an explicit selector (truthy, not
`"last"`, no force-new) throws the Not-Found error naming the requested
ID exactly when no session with that ID exists on the server; no
session is created, and a successful resolution returns the requested
session itself (no silent fallback). -/
theorem claim_C3_explicit_selector_not_found
    (srv : SdkTool.Server) (id : String) (hne : id ≠ "") (hnl : id ≠ "last") :
    ((SdkTool.resolveSession srv (some id) false).result =
        .error (SdkTool.notFoundMsg id) ↔ ∀ s ∈ srv.sessions, s.id ≠ id) ∧
    SdkTool.notFoundMsg id = "Session không tồn tại: " ++ id ∧
    (SdkTool.resolveSession srv (some id) false).createCalls = 0 ∧
    (∀ s, (SdkTool.resolveSession srv (some id) false).result = .ok s →
      s ∈ srv.sessions ∧ s.id = id) := by
  have hcond : (id != "" && id != "last") = true := by
    simp [bne_iff_ne, hne, hnl]
  cases hg : SdkTool.getSession srv id with
  | none =>
    have hres : SdkTool.resolveSession srv (some id) false =
        ⟨.error (SdkTool.notFoundMsg id), 0⟩ := by
      unfold SdkTool.resolveSession
      simp [hcond, hg]
    rw [hres]
    refine ⟨⟨fun _ s hs hsid => ?_, fun _ => rfl⟩, rfl, rfl,
      fun s hcontra => Except.noConfusion hcontra⟩
    have hg' : srv.sessions.find? (fun s => s.id == id) = none := hg
    have := List.find?_eq_none.mp hg' s hs
    simp [hsid] at this
  | some s0 =>
    have hres : SdkTool.resolveSession srv (some id) false = ⟨.ok s0, 0⟩ := by
      unfold SdkTool.resolveSession
      simp [hcond, hg]
    have hg' : srv.sessions.find? (fun s => s.id == id) = some s0 := hg
    have hmem : s0 ∈ srv.sessions := List.mem_of_find?_eq_some hg'
    have hid : s0.id = id := by simpa using List.find?_some hg'
    rw [hres]
    refine ⟨⟨fun hcontra => Except.noConfusion hcontra,
             fun hall => absurd hid (hall s0 hmem)⟩, rfl, rfl, ?_⟩
    intro s hs
    have hss : s0 = s := by simpa using hs
    exact hss ▸ ⟨hmem, hid⟩

/-- Witness for C3: the spec's scenario — explicit selector
`ses_abc123` absent from a two-session directory resolves to the
Not-Found error with no create call. -/
theorem claim_C3_witness :
    ("ses_abc123" : String) ≠ "" ∧
    ("ses_abc123" : String) ≠ "last" ∧
    (SdkTool.resolveSession sdkSrvTwo (some "ses_abc123") false).result =
      .error (SdkTool.notFoundMsg "ses_abc123") ∧
    (SdkTool.resolveSession sdkSrvTwo (some "ses_abc123") false).createCalls = 0 :=
  ⟨by decide, by decide,
   ((claim_C3_explicit_selector_not_found sdkSrvTwo "ses_abc123"
      (by decide) (by decide)).1).mpr (by decide),
   (claim_C3_explicit_selector_not_found sdkSrvTwo "ses_abc123"
      (by decide) (by decide)).2.2.1⟩

/-- C5: `resolveSession` with the "use most recent" selector returns a
session of the directory whose `updatedAt` is greatest (the head of the
list sorted by last-updated descending) without creating anything, and
when the directory is empty it instead performs exactly one create call
and returns the created session. -/
theorem claim_C5_most_recent_or_create (srv : SdkTool.Server) :
    (srv.sessions ≠ [] →
      ∃ s, (SdkTool.resolveSession srv none false).result = .ok s ∧
        (SdkTool.resolveSession srv none false).createCalls = 0 ∧
        s ∈ srv.sessions ∧ ∀ t ∈ srv.sessions, t.updatedAt ≤ s.updatedAt) ∧
    (srv.sessions = [] →
      (SdkTool.resolveSession srv none false).createCalls = 1 ∧
      ∀ ns, srv.createData = some ns → ns.id ≠ "" →
        (SdkTool.resolveSession srv none false).result = .ok ns) := by
  constructor
  · intro hne
    have hlen : srv.sessions.mergeSort SdkTool.updatedDesc ≠ [] := by
      intro h0
      have hl := (List.mergeSort_perm srv.sessions SdkTool.updatedDesc).length_eq
      rw [h0] at hl
      exact hne (List.eq_nil_of_length_eq_zero hl.symm)
    obtain ⟨s, tl, heq⟩ := List.exists_cons_of_ne_nil hlen
    have hlatest : SdkTool.getLatestSession (some srv.sessions) = some s := by
      simp [SdkTool.getLatestSession, SdkTool.listSessions, heq]
    have hres : SdkTool.resolveSession srv none false = ⟨.ok s, 0⟩ := by
      unfold SdkTool.resolveSession
      simp [hlatest]
    have htrans : ∀ (a b c : Session),
        SdkTool.updatedDesc a b → SdkTool.updatedDesc b c →
        SdkTool.updatedDesc a c := by
      intro a b c hab hbc
      simp only [SdkTool.updatedDesc, decide_eq_true_eq] at *
      omega
    have htotal : ∀ (a b : Session),
        (SdkTool.updatedDesc a b || SdkTool.updatedDesc b a) = true := by
      intro a b
      simp only [SdkTool.updatedDesc, Bool.or_eq_true, decide_eq_true_eq]
      omega
    have hsorted := List.sorted_mergeSort htrans htotal srv.sessions
    rw [heq] at hsorted
    have hhead := (List.pairwise_cons.mp hsorted).1
    refine ⟨s, by rw [hres], by rw [hres], ?_, ?_⟩
    · exact List.mem_mergeSort.mp (heq ▸ List.mem_cons_self s tl)
    · intro t ht
      have htm : t ∈ s :: tl := heq ▸ List.mem_mergeSort.mpr ht
      rcases List.mem_cons.mp htm with rfl | htl
      · exact Nat.le_refl _
      · have := hhead t htl
        simpa [SdkTool.updatedDesc] using this
  · intro hnil
    have hres : SdkTool.resolveSession srv none false =
        ⟨SdkTool.createSession srv, 1⟩ := by
      unfold SdkTool.resolveSession
      simp [SdkTool.getLatestSession, SdkTool.listSessions, hnil]
    refine ⟨by rw [hres], ?_⟩
    intro ns hcd hne
    rw [hres]
    simp [SdkTool.createSession, hcd, hne]

/-- Witness for C5: the spec's scenario — an empty directory leads to
exactly one create call returning the created session. -/
theorem claim_C5_witness :
    sdkSrvEmpty.sessions = [] ∧
    (SdkTool.resolveSession sdkSrvEmpty none false).createCalls = 1 ∧
    sdkSrvEmpty.createData = some ⟨"ses_new", "t", 9⟩ ∧
    (⟨"ses_new", "t", 9⟩ : Session).id ≠ "" ∧
    (SdkTool.resolveSession sdkSrvEmpty none false).result =
      .ok ⟨"ses_new", "t", 9⟩ :=
  ⟨rfl, ((claim_C5_most_recent_or_create sdkSrvEmpty).2 rfl).1, rfl, by decide,
   ((claim_C5_most_recent_or_create sdkSrvEmpty).2 rfl).2
     ⟨"ses_new", "t", 9⟩ rfl (by decide)⟩

/-! ### Claims about the cache listing -/

theorem strEndsWith_append (s t : String) : strEndsWith (s ++ t) t = true := by
  show t.data.isSuffixOf (s ++ t).data = true
  have hd : (s ++ t).data = s.data ++ t.data := rfl
  rw [hd, List.isSuffixOf_iff_suffix]
  exact List.suffix_append s.data t.data

theorem safeChar_ne_dot (c : Char) : safeChar c ≠ '.' := by
  unfold safeChar
  by_cases h : (c == '.' || c == ':') = true
  · rw [if_pos h]
    decide
  · rw [if_neg h]
    simp only [Bool.or_eq_true, beq_iff_eq, not_or] at h
    exact h.1

theorem replaceFirstChars_strip (p0 : Char) (pr : List Char) :
    ∀ (l : List Char), (∀ c ∈ l, c ≠ p0) →
      replaceFirstChars (p0 :: pr) [] (l ++ (p0 :: pr)) = l := by
  intro l
  induction l with
  | nil =>
    intro _
    simp only [List.nil_append, replaceFirstChars]
    rw [if_pos (List.isPrefixOf_iff_prefix.mpr (List.prefix_refl _))]
    simp [List.drop_length]
  | cons c cs ih =>
    intro hl
    have hc : c ≠ p0 := hl c (List.mem_cons_self c cs)
    simp only [List.cons_append, replaceFirstChars]
    rw [if_neg ?_]
    · exact congrArg (c :: ·) (ih fun x hx => hl x (List.mem_cons_of_mem c hx))
    · rw [List.isPrefixOf_iff_prefix]
      intro hpre
      obtain ⟨u, hu⟩ := hpre
      injection hu with h1 _
      exact hc h1.symm

theorem replaceFirst_strip_dotSession (s : String)
    (hs : ∀ c ∈ s.data, c ≠ '.') :
    replaceFirst (s ++ ".session") ".session" "" = s := by
  show String.mk (replaceFirstChars (".session" : String).data []
    (s.data ++ (".session" : String).data)) = s
  rw [show (".session" : String).data = '.' :: ("session" : String).data from rfl]
  rw [replaceFirstChars_strip '.' ("session" : String).data s.data hs]

theorem plainChar_fixed (c : Char) (h1 : c ≠ '.') (h3 : c ≠ '_') :
    underscoreToColon (safeChar c) = c := by
  by_cases h2 : c = ':'
  · subst h2
    decide
  · have hs : safeChar c = c := by
      unfold safeChar
      rw [if_neg (by simp [h1, h2])]
    rw [hs]
    unfold underscoreToColon
    rw [if_neg (by simp [h3])]

theorem digitChar_plain (n : Nat) (h : n < 10) :
    Nat.digitChar n ≠ '.' ∧ Nat.digitChar n ≠ ':' ∧ Nat.digitChar n ≠ '_' := by
  interval_cases n <;> decide

theorem toDigitsCore_plain (fuel : Nat) :
    ∀ (n : Nat) (ds : List Char),
      (∀ c ∈ ds, c ≠ '.' ∧ c ≠ ':' ∧ c ≠ '_') →
      ∀ c ∈ Nat.toDigitsCore 10 fuel n ds, c ≠ '.' ∧ c ≠ ':' ∧ c ≠ '_' := by
  induction fuel with
  | zero =>
    intro n ds hds c hc
    exact hds c hc
  | succ fuel ih =>
    intro n ds hds c hc
    have hcons : ∀ x ∈ Nat.digitChar (n % 10) :: ds,
        x ≠ '.' ∧ x ≠ ':' ∧ x ≠ '_' := by
      intro x hx
      rcases List.mem_cons.mp hx with rfl | hx'
      · exact digitChar_plain (n % 10) (Nat.mod_lt n (by decide))
      · exact hds x hx'
    simp only [Nat.toDigitsCore] at hc
    split at hc
    · exact hcons c hc
    · exact ih (n / 10) (Nat.digitChar (n % 10) :: ds) hcons c hc

theorem natRepr_plain (n : Nat) :
    ∀ c ∈ (Nat.repr n).data, c ≠ '.' ∧ c ≠ ':' ∧ c ≠ '_' := by
  intro c hc
  have hd : (Nat.repr n).data = Nat.toDigitsCore 10 (n + 1) n [] := rfl
  rw [hd] at hc
  exact toDigitsCore_plain (n + 1) n [] (by intro x hx; cases hx) c hc

theorem map_pair_eq_self (l : List Char)
    (hl : ∀ c ∈ l, c ≠ '.' ∧ c ≠ '_') :
    (l.map safeChar).map underscoreToColon = l := by
  rw [List.map_map]
  have h : l.map (underscoreToColon ∘ safeChar) = l.map id :=
    List.map_congr_left fun a ha =>
      plainChar_fixed a (hl a ha).1 (hl a ha).2
  rw [h, List.map_id]

theorem parse_clean_host (host : String) (port : Nat)
    (hclean : ∀ c ∈ host.data, c ≠ '.' ∧ c ≠ '_') :
    mapChars underscoreToColon
      (mapChars safeChar (host ++ "_" ++ toString port)) =
      host ++ ":" ++ toString port := by
  have hgoal : ((host ++ "_" ++ toString port).data.map safeChar).map
      underscoreToColon = (host ++ ":" ++ toString port).data := by
    rw [show (host ++ "_" ++ toString port).data
        = host.data ++ '_' :: (toString port).data from by
      show (host.data ++ ['_']) ++ (toString port).data = _
      simp]
    simp only [List.map_append, List.map_cons]
    rw [map_pair_eq_self host.data hclean,
        map_pair_eq_self (toString port).data (fun c hc =>
          ⟨(natRepr_plain port c hc).1, (natRepr_plain port c hc).2.2⟩)]
    rw [show underscoreToColon (safeChar '_') = ':' from by decide]
    rw [List.append_cons]
    rfl
  show String.mk (((host ++ "_" ++ toString port).data.map safeChar).map
    underscoreToColon) = host ++ ":" ++ toString port
  rw [hgoal]

/-- C6 counterexample: the endpoint `(127.0.0.1, 4096)` is persisted
under the storage key `127_0_0_1_4096.session`, and `listSessions`
parses that key back as server `127:0:0:1:4096` — not the original
`127.0.0.1:4096` — because the key derivation already conflated the
host's dots with the host–port separator. -/
theorem claim_C6_counterexample :
    CachedTool.getSessionFilePath "127.0.0.1" 4096 =
      "127_0_0_1_4096.session" ∧
    CachedTool.listSessions [("127_0_0_1_4096.session", "ses_x")] =
      [⟨"ses_x", "127:0:0:1:4096", "127_0_0_1_4096.session"⟩] ∧
    ("127:0:0:1:4096" : String) ≠ "127.0.0.1:4096" := by decide

/-- C6 amended: for every endpoint whose record is in the store, List
enumerates an entry pairing the stored (trimmed) session ID with the
server label obtained from the storage key by dropping the extension
and replacing every underscore with a colon; that label need not be the
original `host:port` (see the counterexample), but it is whenever the
host contains neither `.` nor `_`. -/
theorem claim_C6_list_parses_storage_key
    (store : Store) (host : String) (port : Nat) (sid : String)
    (hmem : (CachedTool.getSessionFilePath host port, sid) ∈ store) :
    (⟨jsTrim sid,
      mapChars underscoreToColon
        (mapChars safeChar (host ++ "_" ++ toString port)),
      CachedTool.getSessionFilePath host port⟩ : CachedTool.SessionEntry) ∈
        CachedTool.listSessions store ∧
    ((∀ c ∈ host.data, c ≠ '.' ∧ c ≠ '_') →
      mapChars underscoreToColon
        (mapChars safeChar (host ++ "_" ++ toString port)) =
        host ++ ":" ++ toString port) := by
  constructor
  · apply List.mem_filterMap.mpr
    refine ⟨(CachedTool.getSessionFilePath host port, sid), hmem, ?_⟩
    have hends : strEndsWith (CachedTool.getSessionFilePath host port)
        ".session" = true := strEndsWith_append _ _
    have hstrip : replaceFirst (CachedTool.getSessionFilePath host port)
        ".session" "" = mapChars safeChar (host ++ "_" ++ toString port) := by
      apply replaceFirst_strip_dotSession
      intro c hc
      obtain ⟨c0, _, rfl⟩ := List.mem_map.mp hc
      exact safeChar_ne_dot c0
    simp only [hends, if_true, hstrip]
  · exact parse_clean_host host port

/-- Witness for C6's amended theorem: a `localhost` record (clean host)
round-trips to `localhost:4096`. -/
theorem claim_C6_witness :
    ((CachedTool.getSessionFilePath "localhost" 4096, "ses_y") ∈
      ([(CachedTool.getSessionFilePath "localhost" 4096, "ses_y")] : Store)) ∧
    ((⟨jsTrim "ses_y",
       mapChars underscoreToColon
         (mapChars safeChar ("localhost" ++ "_" ++ toString 4096)),
       CachedTool.getSessionFilePath "localhost" 4096⟩ :
        CachedTool.SessionEntry) ∈
      CachedTool.listSessions
        [(CachedTool.getSessionFilePath "localhost" 4096, "ses_y")]) ∧
    mapChars underscoreToColon
      (mapChars safeChar ("localhost" ++ "_" ++ toString 4096)) =
      "localhost" ++ ":" ++ toString 4096 :=
  ⟨List.mem_cons_self _ _,
   (claim_C6_list_parses_storage_key
      [(CachedTool.getSessionFilePath "localhost" 4096, "ses_y")]
      "localhost" 4096 "ses_y" (List.mem_cons_self _ _)).1,
   (claim_C6_list_parses_storage_key
      [(CachedTool.getSessionFilePath "localhost" 4096, "ses_y")]
      "localhost" 4096 "ses_y" (List.mem_cons_self _ _)).2 (by decide)⟩
